import Mathlib

namespace MediFriend

/-! Shallow embedding of `src/main.py` (Medi-Friend API) together with the
collection schemas declared in `src/schemas.py`.

Timestamps are modelled as `Nat` (seconds since an arbitrary epoch). Each
request handler takes the current clock value `now` as a parameter: every
`utc_now()` call inside a single handler reads the same instant. Randomly
generated values (`secrets.token_urlsafe`) and store-generated `_id`s are
passed in as parameters. The MongoDB collections `user`, `session` and
`medication` are modelled as lists of records; `find_one` is `List.find?`,
`update_one` is `updateFirst` (update the first matching document) and
`delete_one` is `List.eraseP` (remove the first matching document). -/

/-- Default `AUTH_SALT` from `main.py`. -/
def SALT : String := "medi-friend-demo-salt"

/-- `hash_password(password)`: the SHA-256 hex digest of `password + SALT`.
The digest function is abstracted as an injective string constructor; no
claim depends on concrete digest values, only on equality of digests. -/
def hash_password (password : String) : String :=
  "sha256:" ++ password ++ SALT

/-- `timedelta(days=7)` in seconds. -/
def sevenDays : Nat := 7 * 24 * 60 * 60

/-- `timedelta(hours=1)` in seconds. -/
def oneHour : Nat := 60 * 60

/-- `timedelta(minutes=10)` in seconds. -/
def tenMinutes : Nat := 10 * 60

/-- A document of the `user` collection (`schemas.User` plus the fields
`main.py` writes: reset-token sub-state and timestamps). `reset_token` and
`reset_token_expires` are absent (`none`) until `forgot` sets them. -/
structure User where
  id : Nat
  name : String
  email : String
  password_hash : String
  notifications_enabled : Bool
  reset_token : Option String
  reset_token_expires : Option Nat
  created_at : Nat
  updated_at : Nat
  deriving DecidableEq

/-- A document of the `session` collection (`schemas.Session` plus
`created_at`). `expires_at` is optional in the store: `get_current_user`
guards the expiry check with `sess.get("expires_at")`. Both writers
(`signup`, `login`) always set it. -/
structure Session where
  id : Nat
  user_id : Nat
  token : String
  created_at : Nat
  expires_at : Option Nat
  deriving DecidableEq

/-- A document of the `medication` collection (`schemas.Medication` plus
timestamps). `last_taken_at` and `snooze_until_utc` are absent (`none`)
until `mark_taken` / `snooze` set them. -/
structure Medication where
  id : Nat
  user_id : Nat
  name : String
  dosage : String
  time_12h : String
  frequency : String
  notes : Option String
  last_taken_at : Option Nat
  snooze_until_utc : Option Nat
  created_at : Nat
  updated_at : Nat
  deriving DecidableEq

/-- The document store: the three collections used by `main.py`. -/
structure DB where
  users : List User
  sessions : List Session
  medications : List Medication
  deriving DecidableEq

/-- The authenticated principal returned by `get_current_user`. -/
structure Principal where
  id : Nat
  name : String
  email : String
  notifications_enabled : Bool
  deriving DecidableEq

/-- `TokenOut` response model. -/
structure TokenOut where
  token : String
  name : String
  email : String
  notifications_enabled : Bool
  deriving DecidableEq

/-- `MedicationIn` request model: `frequency` is a plain string; the
comment `# daily | alternate | weekly` in `main.py` is not enforced by any
validator. -/
structure MedicationIn where
  name : String
  dosage : String
  time_12h : String
  frequency : String
  notes : Option String
  deriving DecidableEq

/-- `MedicationOut` response model. -/
structure MedicationOut where
  id : Nat
  name : String
  dosage : String
  time_12h : String
  frequency : String
  notes : Option String
  last_taken_at : Option Nat
  snooze_until_utc : Option Nat
  deriving DecidableEq

/-- Python `str.upper()` restricted to the ASCII range covered by
`Char.toUpper`; `time_12h` strings are ASCII (digits, colon, space, am/pm). -/
def pyUpper (s : String) : String :=
  ⟨s.data.map Char.toUpper⟩

/-- Mongo `update_one(filter, {"$set": ...})`: apply `f` to the first
element of the list satisfying `p`, leave everything else unchanged. -/
def updateFirst {α : Type} (p : α → Bool) (f : α → α) : List α → List α
  | [] => []
  | a :: l => if p a then f a :: l else a :: updateFirst p f l

/-- Python `str.lower()` restricted to the ASCII range covered by
`Char.toLower` (the header check only cares about the letters of
`"bearer"`). -/
def pyLower (s : String) : String :=
  ⟨s.data.map Char.toLower⟩

/-- Extraction of the bearer token from the authorization header
(`main.py` lines 100-102): reject a missing or empty header or one whose
lowercasing does not start with `"bearer "`; otherwise the token is
everything after the first space, i.e. `authorization.split(" ", 1)[1]`.
Since the lowercased header starts with `"bearer "`, its first space is
at index 6, so the token is the characters from index 7 on. -/
def bearerToken (authorization : Option String) : Option String :=
  match authorization with
  | none => none
  | some auth =>
    if auth = "" then none
    else if "bearer ".data.isPrefixOf (pyLower auth).data then
      some ⟨auth.data.drop 7⟩
    else none

/-- The internally distinguishable failure modes of `get_current_user`;
the transport layer maps all of them to HTTP 401 (Unauthenticated). -/
inductive AuthErr where
  | MissingToken
  | InvalidToken
  | UserNotFound
  | SessionExpired
  deriving DecidableEq

/-- `get_current_user` (`main.py` lines 98-113). Order of checks as in the
source: header, session lookup, user lookup, then the expiry check, which
deletes the expired session by its `_id`. Returns the outcome together
with the (possibly mutated) store. -/
def get_current_user (db : DB) (authorization : Option String) (now : Nat) :
    Except AuthErr Principal × DB :=
  match bearerToken authorization with
  | none => (.error .MissingToken, db)
  | some token =>
    match db.sessions.find? (fun s => s.token = token) with
    | none => (.error .InvalidToken, db)
    | some sess =>
      match db.users.find? (fun u => u.id = sess.user_id) with
      | none => (.error .UserNotFound, db)
      | some user =>
        match sess.expires_at with
        | none => (.ok ⟨user.id, user.name, user.email, user.notifications_enabled⟩, db)
        | some e =>
          if e < now then
            (.error .SessionExpired,
              { db with sessions := db.sessions.eraseP (fun s => s.id = sess.id) })
          else
            (.ok ⟨user.id, user.name, user.email, user.notifications_enabled⟩, db)

/-- `get_user_by_email` (`main.py` lines 45-47). -/
def get_user_by_email (db : DB) (email : String) : Option User :=
  db.users.find? (fun u => u.email = email)

inductive SignupErr where
  | DuplicateEmail
  deriving DecidableEq

/-- `signup` (`main.py` lines 122-143). `freshUserId`, `freshSessId` stand
for the store-generated `_id`s and `token` for `secrets.token_urlsafe(32)`. -/
def signup (db : DB) (name email password : String) (token : String)
    (freshUserId freshSessId now : Nat) :
    Except SignupErr (TokenOut × DB) :=
  match get_user_by_email db email with
  | some _ => .error .DuplicateEmail
  | none =>
    let user : User :=
      { id := freshUserId, name := name, email := email
        password_hash := hash_password password
        notifications_enabled := true
        reset_token := none, reset_token_expires := none
        created_at := now, updated_at := now }
    let sess : Session :=
      { id := freshSessId, user_id := freshUserId, token := token
        created_at := now, expires_at := some (now + sevenDays) }
    .ok (⟨token, name, email, true⟩,
      { db with users := db.users ++ [user], sessions := db.sessions ++ [sess] })

inductive LoginErr where
  | InvalidCredentials
  deriving DecidableEq

/-- `login` (`main.py` lines 146-159). -/
def login (db : DB) (email password : String) (token : String)
    (freshSessId now : Nat) : Except LoginErr (TokenOut × DB) :=
  match get_user_by_email db email with
  | none => .error .InvalidCredentials
  | some user =>
    if user.password_hash ≠ hash_password password then .error .InvalidCredentials
    else
      let sess : Session :=
        { id := freshSessId, user_id := user.id, token := token
          created_at := now, expires_at := some (now + sevenDays) }
      .ok (⟨token, user.name, user.email, user.notifications_enabled⟩,
        { db with sessions := db.sessions ++ [sess] })

/-- `logout` (`main.py` lines 162-168): delete the session by token when a
bearer token was supplied; always report success. -/
def logout (db : DB) (authorization : Option String) : DB :=
  match bearerToken authorization with
  | none => db
  | some token => { db with sessions := db.sessions.eraseP (fun s => s.token = token) }

/-- `forgot` (`main.py` lines 171-181): unknown email answers a generic ok
with no token; a known user gets both reset fields set (`update_one` by
`_id`). `rtoken` stands for `secrets.token_urlsafe(8)`. The returned
`Option String` is the `reset_token` field of the response. -/
def forgot (db : DB) (email : String) (rtoken : String) (now : Nat) :
    Option String × DB :=
  match get_user_by_email db email with
  | none => (none, db)
  | some user =>
    let users' := updateFirst (fun u => u.id = user.id)
      (fun u => { u with reset_token := some rtoken,
                         reset_token_expires := some (now + oneHour) })
      db.users
    (some rtoken, { db with users := users' })

/-- Outcome of `reset`: success (with the new store), the 400
"Invalid or expired token" rejection, or the uncaught `TypeError` Python
raises when `user.get("reset_token_expires")` is `None` in the comparison
`user.get("reset_token_expires") < utc_now()`. -/
inductive ResetOutcome where
  | ok (db : DB)
  | invalidOrExpired
  | typeError
  deriving DecidableEq

/-- `reset` (`main.py` lines 184-191). The `or`-chain short-circuits: the
expiry comparison is evaluated only when the user exists and the stored
`reset_token` equals the supplied one. On success the password digest is
replaced and both reset fields are `$unset`. -/
def reset (db : DB) (email rtoken new_password : String) (now : Nat) :
    ResetOutcome :=
  match get_user_by_email db email with
  | none => .invalidOrExpired
  | some user =>
    if user.reset_token ≠ some rtoken then .invalidOrExpired
    else
      match user.reset_token_expires with
      | none => .typeError
      | some e =>
        if e < now then .invalidOrExpired
        else
          let users' := updateFirst (fun u => u.id = user.id)
            (fun u => { u with password_hash := hash_password new_password,
                               reset_token := none,
                               reset_token_expires := none })
            db.users
          .ok { db with users := users' }

/-- `update_settings` (`main.py` lines 199-208): merge the provided field
into the authenticated user's record; absent field is a no-op. -/
def update_settings (db : DB) (pid : Nat) (notifications : Option Bool) : DB :=
  match notifications with
  | none => db
  | some b =>
    let users' := updateFirst (fun u => u.id = pid)
      (fun u => { u with notifications_enabled := b }) db.users
    { db with users := users' }

inductive MedErr where
  | NotFound
  deriving DecidableEq

/-- `create_med` (`main.py` lines 231-254): stores the document with
`time_12h` uppercased, `frequency` as supplied (no validation), and no
`last_taken_at`/`snooze_until_utc`. `freshId` is the generated `_id`. -/
def create_med (db : DB) (pid : Nat) (med : MedicationIn) (freshId now : Nat) :
    MedicationOut × DB :=
  let doc : Medication :=
    { id := freshId, user_id := pid
      name := med.name, dosage := med.dosage
      time_12h := pyUpper med.time_12h
      frequency := med.frequency, notes := med.notes
      last_taken_at := none, snooze_until_utc := none
      created_at := now, updated_at := now }
  (⟨freshId, doc.name, doc.dosage, doc.time_12h, doc.frequency, doc.notes, none, none⟩,
    { db with medications := db.medications ++ [doc] })

/-- `update_med` (`main.py` lines 257-282): look up by `(id, user_id)`,
404 when absent; otherwise `$set` the five spec fields plus `updated_at`
on the document with that `_id`. -/
def update_med (db : DB) (pid : Nat) (med_id : Nat) (med : MedicationIn)
    (now : Nat) : Except MedErr (MedicationOut × DB) :=
  match db.medications.find? (fun m => m.id = med_id && m.user_id = pid) with
  | none => .error .NotFound
  | some m =>
    let upd : Medication → Medication := fun x =>
      { x with name := med.name, dosage := med.dosage
               time_12h := pyUpper med.time_12h
               frequency := med.frequency, notes := med.notes
               updated_at := now }
    let m' := upd m
    .ok (⟨m.id, m'.name, m'.dosage, m'.time_12h, m'.frequency, m'.notes,
          m'.last_taken_at, m'.snooze_until_utc⟩,
      { db with medications := updateFirst (fun x => x.id = m.id) upd db.medications })

/-- `delete_med` (`main.py` lines 285-289): unconditionally
`delete_one({"_id": med_id, "user_id": pid})` and answer `{"ok": True}` —
there is no 404 branch. The returned `Bool` is the `ok` field. -/
def delete_med (db : DB) (pid : Nat) (med_id : Nat) : Bool × DB :=
  (true,
    { db with medications :=
        db.medications.eraseP (fun m => m.id = med_id && m.user_id = pid) })

/-- `mark_taken` (`main.py` lines 292-299): look up by `(id, user_id)`,
404 when absent; otherwise set `last_taken_at = now`,
`snooze_until_utc = None` and `updated_at = now`. -/
def mark_taken (db : DB) (pid : Nat) (med_id : Nat) (now : Nat) :
    Except MedErr DB :=
  match db.medications.find? (fun m => m.id = med_id && m.user_id = pid) with
  | none => .error .NotFound
  | some m =>
    let meds' := updateFirst (fun x => x.id = m.id)
      (fun x => { x with last_taken_at := some now,
                         snooze_until_utc := none,
                         updated_at := now }) db.medications
    .ok { db with medications := meds' }

/-- `snooze` (`main.py` lines 302-309): look up by `(id, user_id)`, 404
when absent; otherwise set `snooze_until_utc = now + 10 minutes` and
`updated_at = now`; `last_taken_at` is not in the `$set` document. -/
def snooze (db : DB) (pid : Nat) (med_id : Nat) (now : Nat) :
    Except MedErr DB :=
  match db.medications.find? (fun m => m.id = med_id && m.user_id = pid) with
  | none => .error .NotFound
  | some m =>
    let meds' := updateFirst (fun x => x.id = m.id)
      (fun x => { x with snooze_until_utc := some (now + tenMinutes),
                         updated_at := now }) db.medications
    .ok { db with medications := meds' }

/-! ### Store lemmas

Generic facts about `find?`, `updateFirst` and `eraseP` on lists whose
documents carry pairwise-distinct keys, mirroring the uniqueness of Mongo
`_id`s. -/

/-- Two members of a list with pairwise-distinct keys that agree on the
key are the same document. -/
theorem nodup_key_eq {α κ : Type} {key : α → κ} :
    ∀ {l : List α}, (l.map key).Nodup → ∀ {x y : α}, x ∈ l → y ∈ l →
      key x = key y → x = y := by
  intro l
  induction l with
  | nil => intro _ x y hx _ _; exact absurd hx (List.not_mem_nil x)
  | cons a l ih =>
    intro hnd x y hx hy hkey
    rw [List.map_cons, List.nodup_cons] at hnd
    rcases List.mem_cons.mp hx with rfl | hx'
    · rcases List.mem_cons.mp hy with rfl | hy'
      · rfl
      · exact absurd (by rw [hkey]; exact List.mem_map_of_mem key hy') hnd.1
    · rcases List.mem_cons.mp hy with rfl | hy'
      · exact absurd (by rw [← hkey]; exact List.mem_map_of_mem key hx') hnd.1
      · exact ih hnd.2 hx' hy' hkey

/-- `find?` returns the unique element satisfying its predicate. -/
theorem find?_of_unique {α : Type} {p : α → Bool} {x : α} :
    ∀ {l : List α}, x ∈ l → p x = true →
      (∀ y ∈ l, p y = true → y = x) → l.find? p = some x := by
  intro l
  induction l with
  | nil => intro h; exact absurd h (List.not_mem_nil x)
  | cons a l ih =>
    intro hx hpx huniq
    by_cases hpa : p a = true
    · have hax : a = x := huniq a (List.mem_cons_self a l) hpa
      rw [List.find?_cons_of_pos _ hpa, hax]
    · have hxa : x ≠ a := fun h => hpa (h ▸ hpx)
      have hxl : x ∈ l := (List.mem_cons.mp hx).resolve_left hxa
      rw [List.find?_cons_of_neg _ hpa]
      exact ih hxl hpx (fun y hy hpy => huniq y (List.mem_cons_of_mem a hy) hpy)

/-- Every element of `updateFirst p f l` is an old element of `l` or the
image under `f` of an old element. -/
theorem mem_updateFirst {α : Type} {p : α → Bool} {f : α → α} {y : α} :
    ∀ {l : List α}, y ∈ updateFirst p f l → y ∈ l ∨ ∃ x, x ∈ l ∧ y = f x := by
  intro l
  induction l with
  | nil => intro h; exact absurd h (List.not_mem_nil y)
  | cons a l ih =>
    intro hy
    by_cases hpa : p a = true
    · simp only [updateFirst, if_pos hpa] at hy
      rcases List.mem_cons.mp hy with h | h
      · exact Or.inr ⟨a, List.mem_cons_self a l, h⟩
      · exact Or.inl (List.mem_cons_of_mem a h)
    · simp only [updateFirst, if_neg hpa] at hy
      rcases List.mem_cons.mp hy with h | h
      · subst h; exact Or.inl (List.mem_cons_self y l)
      · rcases ih h with h' | ⟨x, hx, hyx⟩
        · exact Or.inl (List.mem_cons_of_mem a h')
        · exact Or.inr ⟨x, List.mem_cons_of_mem a hx, hyx⟩

/-- `updateFirst` with a predicate no element satisfies is the identity. -/
theorem updateFirst_of_forall_not {α : Type} {p : α → Bool} (f : α → α) :
    ∀ {l : List α}, (∀ a ∈ l, ¬ p a = true) → updateFirst p f l = l := by
  intro l
  induction l with
  | nil => intro _; rfl
  | cons a l ih =>
    intro h
    have hpa := h a (List.mem_cons_self a l)
    simp only [updateFirst, if_neg hpa]
    rw [ih (fun b hb => h b (List.mem_cons_of_mem a hb))]

/-- After updating the unique `p`-element `x` of a list with `f`, a
`find?` whose predicate `q` holds of `f x` and of no other element
returns the image `f x`. -/
theorem find?_updateFirst {α : Type} {p q : α → Bool} {f : α → α} {x : α} :
    ∀ {l : List α}, x ∈ l → p x = true → q (f x) = true →
      (∀ y ∈ l, p y = true → y = x) → (∀ y ∈ l, q y = true → y = x) →
      (updateFirst p f l).find? q = some (f x) := by
  intro l
  induction l with
  | nil => intro h; exact absurd h (List.not_mem_nil x)
  | cons a l ih =>
    intro hx hpx hqfx huniqp huniqq
    by_cases hpa : p a = true
    · have hax : a = x := huniqp a (List.mem_cons_self a l) hpa
      subst hax
      simp only [updateFirst, if_pos hpa]
      rw [List.find?_cons_of_pos _ hqfx]
    · have hxa : x ≠ a := fun h => hpa (h ▸ hpx)
      have hxl : x ∈ l := (List.mem_cons.mp hx).resolve_left hxa
      have hqa : ¬ q a = true := fun hqa =>
        hxa ((huniqq a (List.mem_cons_self a l) hqa).symm)
      simp only [updateFirst, if_neg hpa]
      rw [List.find?_cons_of_neg _ hqa]
      exact ih hxl hpx hqfx
        (fun y hy hpy => huniqp y (List.mem_cons_of_mem a hy) hpy)
        (fun y hy hqy => huniqq y (List.mem_cons_of_mem a hy) hqy)

/-- Erasing by key from a list with pairwise-distinct keys removes the
keyed element for good. -/
theorem not_mem_eraseP_key {α κ : Type} [DecidableEq κ] (key : α → κ) :
    ∀ {l : List α}, (l.map key).Nodup → ∀ {x : α}, x ∈ l →
      x ∉ l.eraseP (fun y => key y = key x) := by
  intro l
  induction l with
  | nil => intro _ x hx; exact absurd hx (List.not_mem_nil x)
  | cons a l ih =>
    intro hnd x hx
    rw [List.map_cons, List.nodup_cons] at hnd
    by_cases hka : key a = key x
    · rw [List.eraseP_cons_of_pos (by simpa using hka)]
      intro hxl
      exact hnd.1 (by rw [hka]; exact List.mem_map_of_mem key hxl)
    · rw [List.eraseP_cons_of_neg (by simpa using hka)]
      have hxa : x ≠ a := fun h => hka (by rw [h])
      have hxl : x ∈ l := (List.mem_cons.mp hx).resolve_left hxa
      intro hmem
      rcases List.mem_cons.mp hmem with h | h
      · exact hxa h
      · exact ih hnd.2 hxl h

/-! ### Claim theorems -/

/-- C5: for every medication `M` owned by the principal, `mark_taken`
succeeds and the stored record afterwards has `last_taken_at = now` and
`snooze_until_utc = none`, regardless of the medication's prior state. -/
theorem C5_markTaken_sets_now_clears_snooze
    (db : DB) (M : Medication) (now : Nat)
    (hnd : (db.medications.map (fun m => m.id)).Nodup)
    (hM : M ∈ db.medications) :
    ∃ db', mark_taken db M.user_id M.id now = .ok db' ∧
      db'.medications.find? (fun m => m.id = M.id) =
        some { M with last_taken_at := some now, snooze_until_utc := none,
                      updated_at := now } := by
  have hfind : db.medications.find?
      (fun m => m.id = M.id && m.user_id = M.user_id) = some M := by
    apply find?_of_unique hM
    · simp
    · intro y hy hpy
      simp only [Bool.and_eq_true, decide_eq_true_eq] at hpy
      exact nodup_key_eq hnd hy hM hpy.1
  simp only [mark_taken, hfind]
  refine ⟨_, rfl, ?_⟩
  apply find?_updateFirst hM
  · simp
  · simp
  · intro y hy hpy
    simp only [decide_eq_true_eq] at hpy
    exact nodup_key_eq hnd hy hM hpy
  · intro y hy hqy
    simp only [decide_eq_true_eq] at hqy
    exact nodup_key_eq hnd hy hM hqy

/-- Witness for C5 at a concrete store: a snoozed, previously taken
medication is reset to `last_taken_at = 500`, `snooze_until_utc = none`. -/
theorem C5_markTaken_sets_now_clears_snooze_witness :
    ∃ db', mark_taken
        ⟨[], [], [⟨7, 1, "Aspirin", "1 tablet", "8:00 AM", "daily", none,
                   some 100, some 400, 0, 0⟩]⟩ 1 7 500 = .ok db' ∧
      db'.medications.find? (fun m => m.id = 7) =
        some ⟨7, 1, "Aspirin", "1 tablet", "8:00 AM", "daily", none,
              some 500, none, 0, 500⟩ := by
  have h := C5_markTaken_sets_now_clears_snooze
    ⟨[], [], [⟨7, 1, "Aspirin", "1 tablet", "8:00 AM", "daily", none,
               some 100, some 400, 0, 0⟩]⟩
    ⟨7, 1, "Aspirin", "1 tablet", "8:00 AM", "daily", none,
     some 100, some 400, 0, 0⟩ 500 (by decide) (by decide)
  exact h

/-- C6: for every medication `M` owned by the principal, `snooze` succeeds,
the stored record afterwards has `snooze_until_utc = now + 10 minutes`,
and its `last_taken_at` equals the value before the call. -/
theorem C6_snooze_sets_window_preserves_taken
    (db : DB) (M : Medication) (now : Nat)
    (hnd : (db.medications.map (fun m => m.id)).Nodup)
    (hM : M ∈ db.medications) :
    ∃ db' M', snooze db M.user_id M.id now = .ok db' ∧
      db'.medications.find? (fun m => m.id = M.id) = some M' ∧
      M'.snooze_until_utc = some (now + tenMinutes) ∧
      M'.last_taken_at = M.last_taken_at := by
  have hfind : db.medications.find?
      (fun m => m.id = M.id && m.user_id = M.user_id) = some M := by
    apply find?_of_unique hM
    · simp
    · intro y hy hpy
      simp only [Bool.and_eq_true, decide_eq_true_eq] at hpy
      exact nodup_key_eq hnd hy hM hpy.1
  have hq : (updateFirst (fun x => x.id = M.id)
      (fun x => { x with snooze_until_utc := some (now + tenMinutes),
                         updated_at := now })
      db.medications).find? (fun m => m.id = M.id) =
      some { M with snooze_until_utc := some (now + tenMinutes),
                    updated_at := now } := by
    apply find?_updateFirst hM
    · simp
    · simp
    · intro y hy hpy
      simp only [decide_eq_true_eq] at hpy
      exact nodup_key_eq hnd hy hM hpy
    · intro y hy hqy
      simp only [decide_eq_true_eq] at hqy
      exact nodup_key_eq hnd hy hM hqy
  simp only [snooze, hfind]
  exact ⟨_, _, rfl, hq, rfl, rfl⟩

/-- Witness for C6 at a concrete store: snoozing at `t0 = 500` yields
`snooze_until_utc = 1100 = 500 + 600` and keeps `last_taken_at = 100`. -/
theorem C6_snooze_sets_window_preserves_taken_witness :
    ∃ db' M', snooze
        ⟨[], [], [⟨7, 1, "Aspirin", "1 tablet", "8:00 AM", "daily", none,
                   some 100, none, 0, 0⟩]⟩ 1 7 500 = .ok db' ∧
      db'.medications.find? (fun m => m.id = 7) = some M' ∧
      M'.snooze_until_utc = some 1100 ∧
      M'.last_taken_at = some 100 := by
  have h := C6_snooze_sets_window_preserves_taken
    ⟨[], [], [⟨7, 1, "Aspirin", "1 tablet", "8:00 AM", "daily", none,
               some 100, none, 0, 0⟩]⟩
    ⟨7, 1, "Aspirin", "1 tablet", "8:00 AM", "daily", none,
     some 100, none, 0, 0⟩ 500 (by decide) (by decide)
  exact h

/-- C7: for every medication `M` owned by the principal, `update_med`
succeeds, the stored record afterwards carries the five submitted fields
(`time_12h` uppercased), and `last_taken_at` and `snooze_until_utc` equal
their values before the call. -/
theorem C7_update_replaces_spec_fields_preserves_state
    (db : DB) (M : Medication) (med : MedicationIn) (now : Nat)
    (hnd : (db.medications.map (fun m => m.id)).Nodup)
    (hM : M ∈ db.medications) :
    ∃ out db' M', update_med db M.user_id M.id med now = .ok (out, db') ∧
      db'.medications.find? (fun m => m.id = M.id) = some M' ∧
      M'.name = med.name ∧ M'.dosage = med.dosage ∧
      M'.time_12h = pyUpper med.time_12h ∧ M'.frequency = med.frequency ∧
      M'.notes = med.notes ∧
      M'.last_taken_at = M.last_taken_at ∧
      M'.snooze_until_utc = M.snooze_until_utc := by
  have hfind : db.medications.find?
      (fun m => m.id = M.id && m.user_id = M.user_id) = some M := by
    apply find?_of_unique hM
    · simp
    · intro y hy hpy
      simp only [Bool.and_eq_true, decide_eq_true_eq] at hpy
      exact nodup_key_eq hnd hy hM hpy.1
  have hq : (updateFirst (fun x => x.id = M.id)
      (fun x => { x with name := med.name, dosage := med.dosage,
                         time_12h := pyUpper med.time_12h,
                         frequency := med.frequency, notes := med.notes,
                         updated_at := now })
      db.medications).find? (fun m => m.id = M.id) =
      some { M with name := med.name, dosage := med.dosage,
                    time_12h := pyUpper med.time_12h,
                    frequency := med.frequency, notes := med.notes,
                    updated_at := now } := by
    apply find?_updateFirst hM
    · simp
    · simp
    · intro y hy hpy
      simp only [decide_eq_true_eq] at hpy
      exact nodup_key_eq hnd hy hM hpy
    · intro y hy hqy
      simp only [decide_eq_true_eq] at hqy
      exact nodup_key_eq hnd hy hM hqy
  simp only [update_med, hfind]
  exact ⟨_, _, _, rfl, hq, rfl, rfl, rfl, rfl, rfl, rfl, rfl⟩

/-- Witness for C7: updating a taken-and-snoozed medication replaces the
five fields and leaves `last_taken_at = 100`, `snooze_until_utc = 400`. -/
theorem C7_update_replaces_spec_fields_preserves_state_witness :
    ∃ out db' M', update_med
        ⟨[], [], [⟨7, 1, "Aspirin", "1 tablet", "8:00 AM", "daily", none,
                   some 100, some 400, 0, 0⟩]⟩ 1 7
        ⟨"Ibuprofen", "2 tablets", "9:15 pm", "weekly", some "after food"⟩
        500 = .ok (out, db') ∧
      db'.medications.find? (fun m => m.id = 7) = some M' ∧
      M'.name = "Ibuprofen" ∧ M'.dosage = "2 tablets" ∧
      M'.time_12h = "9:15 PM" ∧ M'.frequency = "weekly" ∧
      M'.notes = some "after food" ∧
      M'.last_taken_at = some 100 ∧
      M'.snooze_until_utc = some 400 := by
  have h := C7_update_replaces_spec_fields_preserves_state
    ⟨[], [], [⟨7, 1, "Aspirin", "1 tablet", "8:00 AM", "daily", none,
               some 100, some 400, 0, 0⟩]⟩
    ⟨7, 1, "Aspirin", "1 tablet", "8:00 AM", "daily", none,
     some 100, some 400, 0, 0⟩
    ⟨"Ibuprofen", "2 tablets", "9:15 pm", "weekly", some "after food"⟩
    500 (by decide) (by decide)
  exact h

/-- C3 (amended): for a medication `M` owned by user `A` and any other
principal `B`, `update_med`, `mark_taken` and `snooze` on `M`'s id answer
`NotFound` without touching the store; `delete_med` answers the generic
success `{ok: true}` (the handler has no 404 branch) and also leaves the
store unchanged — never partial success. -/
theorem C3_cross_user_ops_rejected_store_unchanged
    (db : DB) (M : Medication) (B : Nat) (med : MedicationIn) (now : Nat)
    (hnd : (db.medications.map (fun m => m.id)).Nodup)
    (hM : M ∈ db.medications) (hB : B ≠ M.user_id) :
    update_med db B M.id med now = .error .NotFound ∧
    mark_taken db B M.id now = .error .NotFound ∧
    snooze db B M.id now = .error .NotFound ∧
    delete_med db B M.id = (true, db) := by
  have hnone : ∀ y ∈ db.medications, ¬ ((y.id = M.id && y.user_id = B) = true) := by
    intro y hy h
    simp only [Bool.and_eq_true, decide_eq_true_eq] at h
    have hyM : y = M := nodup_key_eq hnd hy hM h.1
    subst hyM
    exact hB h.2.symm
  have hfind : db.medications.find?
      (fun m => m.id = M.id && m.user_id = B) = none :=
    List.find?_eq_none.mpr hnone
  have herase : db.medications.eraseP
      (fun m => m.id = M.id && m.user_id = B) = db.medications :=
    List.eraseP_of_forall_not hnone
  refine ⟨?_, ?_, ?_, ?_⟩
  · simp only [update_med, hfind]
  · simp only [mark_taken, hfind]
  · simp only [snooze, hfind]
  · unfold delete_med
    rw [herase]

/-- C3 counterexample: user 2 deleting user 1's medication receives the
generic success `{"ok": True}` — not `NotFound` as the claim states —
while the medication list is left unchanged. -/
theorem C3_delete_returns_ok_counterexample :
    delete_med ⟨[], [], [⟨7, 1, "Aspirin", "1 tablet", "8:00 AM", "daily",
        none, none, none, 0, 0⟩]⟩ 2 7 =
      (true, ⟨[], [], [⟨7, 1, "Aspirin", "1 tablet", "8:00 AM", "daily",
        none, none, none, 0, 0⟩]⟩) := by
  decide

/-- Witness for C3 (amended) at a concrete store: principal 2 against
user 1's medication. -/
theorem C3_cross_user_ops_rejected_store_unchanged_witness :
    update_med ⟨[], [], [⟨7, 1, "Aspirin", "1 tablet", "8:00 AM", "daily",
        none, none, none, 0, 0⟩]⟩ 2 7
      ⟨"X", "1", "8:00 am", "daily", none⟩ 500 = .error .NotFound ∧
    mark_taken ⟨[], [], [⟨7, 1, "Aspirin", "1 tablet", "8:00 AM", "daily",
        none, none, none, 0, 0⟩]⟩ 2 7 500 = .error .NotFound ∧
    snooze ⟨[], [], [⟨7, 1, "Aspirin", "1 tablet", "8:00 AM", "daily",
        none, none, none, 0, 0⟩]⟩ 2 7 500 = .error .NotFound ∧
    delete_med ⟨[], [], [⟨7, 1, "Aspirin", "1 tablet", "8:00 AM", "daily",
        none, none, none, 0, 0⟩]⟩ 2 7 =
      (true, ⟨[], [], [⟨7, 1, "Aspirin", "1 tablet", "8:00 AM", "daily",
        none, none, none, 0, 0⟩]⟩) := by
  have h := C3_cross_user_ops_rejected_store_unchanged
    ⟨[], [], [⟨7, 1, "Aspirin", "1 tablet", "8:00 AM", "daily",
               none, none, none, 0, 0⟩]⟩
    ⟨7, 1, "Aspirin", "1 tablet", "8:00 AM", "daily", none,
     none, none, 0, 0⟩ 2
    ⟨"X", "1", "8:00 am", "daily", none⟩ 500 (by decide) (by decide) (by decide)
  exact h

/-- C9: `create_med` stores (and returns) `time_12h` as the uppercased
input, and a successful `update_med` stores (and returns) `time_12h` as
the uppercased input. -/
theorem C9_time12h_stored_uppercased
    (db : DB) (pid : Nat) (med : MedicationIn) (freshId now : Nat)
    (M : Medication)
    (hnd : (db.medications.map (fun m => m.id)).Nodup)
    (hM : M ∈ db.medications) :
    (∃ doc, (create_med db pid med freshId now).2.medications =
        db.medications ++ [doc] ∧ doc.time_12h = pyUpper med.time_12h ∧
      (create_med db pid med freshId now).1.time_12h = pyUpper med.time_12h) ∧
    (∃ out db' M', update_med db M.user_id M.id med now = .ok (out, db') ∧
      db'.medications.find? (fun m => m.id = M.id) = some M' ∧
      M'.time_12h = pyUpper med.time_12h ∧
      out.time_12h = pyUpper med.time_12h) := by
  constructor
  · exact ⟨_, rfl, rfl, rfl⟩
  · have hfind : db.medications.find?
        (fun m => m.id = M.id && m.user_id = M.user_id) = some M := by
      apply find?_of_unique hM
      · simp
      · intro y hy hpy
        simp only [Bool.and_eq_true, decide_eq_true_eq] at hpy
        exact nodup_key_eq hnd hy hM hpy.1
    have hq : (updateFirst (fun x => x.id = M.id)
        (fun x => { x with name := med.name, dosage := med.dosage,
                           time_12h := pyUpper med.time_12h,
                           frequency := med.frequency, notes := med.notes,
                           updated_at := now })
        db.medications).find? (fun m => m.id = M.id) =
        some { M with name := med.name, dosage := med.dosage,
                      time_12h := pyUpper med.time_12h,
                      frequency := med.frequency, notes := med.notes,
                      updated_at := now } := by
      apply find?_updateFirst hM
      · simp
      · simp
      · intro y hy hpy
        simp only [decide_eq_true_eq] at hpy
        exact nodup_key_eq hnd hy hM hpy
      · intro y hy hqy
        simp only [decide_eq_true_eq] at hqy
        exact nodup_key_eq hnd hy hM hqy
    simp only [update_med, hfind]
    exact ⟨_, _, _, rfl, hq, rfl, rfl⟩

/-- Witness for C9: creating and updating with `time_12h = "8:05 pm"`
stores `"8:05 PM"`. -/
theorem C9_time12h_stored_uppercased_witness :
    pyUpper "8:05 pm" = "8:05 PM" ∧
    ((∃ doc, (create_med ⟨[], [], [⟨7, 1, "Aspirin", "1 tablet", "8:00 AM",
          "daily", none, none, none, 0, 0⟩]⟩ 1
          ⟨"Melatonin", "1 tablet", "8:05 pm", "daily", none⟩ 9
          100).2.medications =
        [⟨7, 1, "Aspirin", "1 tablet", "8:00 AM", "daily",
          none, none, none, 0, 0⟩] ++ [doc] ∧
        doc.time_12h = pyUpper "8:05 pm" ∧
      (create_med ⟨[], [], [⟨7, 1, "Aspirin", "1 tablet", "8:00 AM",
          "daily", none, none, none, 0, 0⟩]⟩ 1
          ⟨"Melatonin", "1 tablet", "8:05 pm", "daily", none⟩ 9
          100).1.time_12h = pyUpper "8:05 pm") ∧
    (∃ out db' M', update_med ⟨[], [], [⟨7, 1, "Aspirin", "1 tablet",
          "8:00 AM", "daily", none, none, none, 0, 0⟩]⟩ 1 7
          ⟨"Melatonin", "1 tablet", "8:05 pm", "daily", none⟩ 100 =
        .ok (out, db') ∧
      db'.medications.find? (fun m => m.id = 7) = some M' ∧
      M'.time_12h = pyUpper "8:05 pm" ∧
      out.time_12h = pyUpper "8:05 pm")) := by
  refine ⟨by decide, ?_⟩
  have h := C9_time12h_stored_uppercased
    ⟨[], [], [⟨7, 1, "Aspirin", "1 tablet", "8:00 AM", "daily",
               none, none, none, 0, 0⟩]⟩ 1
    ⟨"Melatonin", "1 tablet", "8:05 pm", "daily", none⟩ 9 100
    ⟨7, 1, "Aspirin", "1 tablet", "8:00 AM", "daily",
     none, none, none, 0, 0⟩ (by decide) (by decide)
  exact h

/-- C4: contrary to the claim (and to the `Literal` declared for the
`medication` collection in `schemas.py`), `create_med` performs no
frequency validation: a request with `frequency = "hourly"` is stored
verbatim rather than rejected. -/
theorem C4_frequency_not_validated :
    ((create_med ⟨[], [], []⟩ 1
        ⟨"Aspirin", "1 tablet", "8:00 am", "hourly", none⟩ 5
        100).2.medications.map (fun m => m.frequency)) = ["hourly"] := by
  decide

/-- C8: every session inserted by a successful `signup` or `login` has
`expires_at = created_at + 7 days` at issuance. -/
theorem C8_session_expires_created_plus_7d
    (db : DB) (name email password token pw2 token2 : String)
    (uid sid sid2 now now2 : Nat) :
    (∀ out db', signup db name email password token uid sid now =
        .ok (out, db') →
      ∃ s, db'.sessions = db.sessions ++ [s] ∧ s.created_at = now ∧
        s.expires_at = some (s.created_at + sevenDays)) ∧
    (∀ out db', login db email pw2 token2 sid2 now2 = .ok (out, db') →
      ∃ s, db'.sessions = db.sessions ++ [s] ∧ s.created_at = now2 ∧
        s.expires_at = some (s.created_at + sevenDays)) := by
  constructor
  · intro out db' h
    unfold signup at h
    split at h
    · exact absurd h (by simp)
    · simp only [Except.ok.injEq, Prod.mk.injEq] at h
      refine ⟨⟨sid, uid, token, now, some (now + sevenDays)⟩, ?_, rfl, rfl⟩
      rw [← h.2]
  · intro out db' h
    unfold login at h
    split at h
    · exact absurd h (by simp)
    · rename_i user hu
      split at h
      · exact absurd h (by simp)
      · simp only [Except.ok.injEq, Prod.mk.injEq] at h
        refine ⟨⟨sid2, user.id, token2, now2, some (now2 + sevenDays)⟩,
          ?_, rfl, rfl⟩
        rw [← h.2]

/-- Witness for C8: a concrete signup on an empty store and a concrete
login both yield a session expiring exactly 7 days after creation. -/
theorem C8_session_expires_created_plus_7d_witness :
    (∃ out db', signup ⟨[], [], []⟩ "Alice" "a@x.com" "pw1" "tk1" 1 6 100 =
        .ok (out, db') ∧
      ∃ s, db'.sessions = ([] : List Session) ++ [s] ∧ s.created_at = 100 ∧
        s.expires_at = some (s.created_at + sevenDays)) ∧
    (∃ out db', login ⟨[⟨1, "Alice", "a@x.com", hash_password "pw1", true,
          none, none, 0, 0⟩], [], []⟩ "a@x.com" "pw1" "tk2" 7 200 =
        .ok (out, db') ∧
      ∃ s, db'.sessions = ([] : List Session) ++ [s] ∧ s.created_at = 200 ∧
        s.expires_at = some (s.created_at + sevenDays)) := by
  constructor
  · refine ⟨_, _, rfl, ?_⟩
    exact (C8_session_expires_created_plus_7d ⟨[], [], []⟩ "Alice" "a@x.com"
      "pw1" "tk1" "pw" "tk" 1 6 7 100 200).1 _ _ rfl
  · refine ⟨_, _, rfl, ?_⟩
    exact (C8_session_expires_created_plus_7d
      ⟨[⟨1, "Alice", "a@x.com", hash_password "pw1", true, none, none, 0, 0⟩],
        [], []⟩ "A" "a@x.com" "p" "t" "pw1" "tk2" 1 6 7 100 200).2 _ _ rfl

/-- C1 (amended): for a stored session resolved from the bearer token,
(i) if the owning user record is gone the check answers `UserNotFound`
with the store untouched — the user is resolved before the expiry check,
so an expired session is neither reported Expired nor removed in that
case; (ii) if the user exists and `expires_at < now` (strictly) the check
answers `SessionExpired` and deletes the session record as part of that
check; (iii) if the user exists and `now <= expires_at` the principal is
returned and the store is untouched. -/
theorem C1_user_resolved_before_expiry_check
    (db : DB) (auth : Option String) (token : String) (sess : Session)
    (e now : Nat)
    (hb : bearerToken auth = some token)
    (hs : db.sessions.find? (fun s => s.token = token) = some sess)
    (he : sess.expires_at = some e) :
    (db.users.find? (fun u => u.id = sess.user_id) = none →
      get_current_user db auth now = (.error .UserNotFound, db)) ∧
    (∀ user, db.users.find? (fun u => u.id = sess.user_id) = some user →
      e < now →
      get_current_user db auth now = (.error .SessionExpired,
        { db with sessions := db.sessions.eraseP (fun s => s.id = sess.id) }) ∧
      ((db.sessions.map (fun s => s.id)).Nodup →
        sess ∉ (get_current_user db auth now).2.sessions)) ∧
    (∀ user, db.users.find? (fun u => u.id = sess.user_id) = some user →
      ¬ e < now →
      get_current_user db auth now =
        (.ok ⟨user.id, user.name, user.email, user.notifications_enabled⟩,
          db)) := by
  refine ⟨?_, ?_, ?_⟩
  · intro hu
    simp only [get_current_user, hb, hs, hu]
  · intro user hu hlt
    have hg : get_current_user db auth now = (.error .SessionExpired,
        { db with sessions := db.sessions.eraseP (fun s => s.id = sess.id) }) := by
      simp only [get_current_user, hb, hs, hu, he]
      rw [if_pos hlt]
    refine ⟨hg, fun hnd => ?_⟩
    rw [hg]
    exact not_mem_eraseP_key (fun s => s.id) hnd (List.mem_of_find?_eq_some hs)
  · intro user hu hlt
    simp only [get_current_user, hb, hs, hu, he]
    rw [if_neg hlt]

/-- C1 counterexample: (i) for an expired session (`expires_at = 5 < now
= 9`) whose owning user record is gone, the check answers `UserNotFound`
and leaves the expired session in the store, where the claim demands
Expired-and-removed; (ii) at `now = expires_at = 5` with the user present
the session is still accepted, where the claim demands rejection once
`now >= expires_at`. -/
theorem C1_expiry_check_counterexample :
    get_current_user ⟨[], [⟨10, 1, "t", 0, some 5⟩], []⟩ (some "bearer t") 9 =
      (.error .UserNotFound, ⟨[], [⟨10, 1, "t", 0, some 5⟩], []⟩) ∧
    get_current_user ⟨[⟨1, "A", "a@x.com", "h", true, none, none, 0, 0⟩],
        [⟨10, 1, "t", 0, some 5⟩], []⟩ (some "bearer t") 5 =
      (.ok ⟨1, "A", "a@x.com", true⟩,
        ⟨[⟨1, "A", "a@x.com", "h", true, none, none, 0, 0⟩],
         [⟨10, 1, "t", 0, some 5⟩], []⟩) := by
  constructor <;> rfl

/-- Witness for C1 (amended): with the user present, validating the
expired session (`expires_at = 5 < now = 9`) answers `SessionExpired` and
removes the session record. -/
theorem C1_user_resolved_before_expiry_check_witness :
    get_current_user ⟨[⟨1, "A", "a@x.com", "h", true, none, none, 0, 0⟩],
        [⟨10, 1, "t", 0, some 5⟩], []⟩ (some "bearer t") 9 =
      (.error .SessionExpired,
        ⟨[⟨1, "A", "a@x.com", "h", true, none, none, 0, 0⟩],
         List.eraseP (fun s => s.id = 10) [⟨10, 1, "t", 0, some 5⟩], []⟩) ∧
    (⟨10, 1, "t", 0, some 5⟩ : Session) ∉
      (get_current_user ⟨[⟨1, "A", "a@x.com", "h", true, none, none, 0, 0⟩],
        [⟨10, 1, "t", 0, some 5⟩], []⟩ (some "bearer t") 9).2.sessions := by
  have h := (C1_user_resolved_before_expiry_check
      ⟨[⟨1, "A", "a@x.com", "h", true, none, none, 0, 0⟩],
       [⟨10, 1, "t", 0, some 5⟩], []⟩
      (some "bearer t") "t" ⟨10, 1, "t", 0, some 5⟩ 5 9
      rfl rfl rfl).2.1
      ⟨1, "A", "a@x.com", "h", true, none, none, 0, 0⟩ rfl (by decide)
  exact ⟨h.1, h.2 (by decide)⟩

/-- C2 (amended): `reset` succeeds iff a user with that email is found,
the stored `reset_token` equals the supplied one, and
`now <= reset_token_expires` — the code rejects only when
`reset_token_expires < now`, so the token is still accepted at
`now = reset_token_expires`. On success the password digest is replaced
and both reset fields are cleared, so replaying the same token afterwards
fails with InvalidOrExpiredToken. -/
theorem C2_reset_characterization
    (db : DB) (email rtok npw : String) (now : Nat)
    (hndid : (db.users.map (fun u => u.id)).Nodup)
    (hndem : (db.users.map (fun u => u.email)).Nodup) :
    ((∃ db', reset db email rtok npw now = .ok db') ↔
      ∃ u e, get_user_by_email db email = some u ∧
        u.reset_token = some rtok ∧ u.reset_token_expires = some e ∧
        now ≤ e) ∧
    (∀ db', reset db email rtok npw now = .ok db' →
      ∃ u, get_user_by_email db email = some u ∧
        get_user_by_email db' email = some
          { u with password_hash := hash_password npw,
                   reset_token := none, reset_token_expires := none } ∧
        ∀ npw' now', reset db' email rtok npw' now' = .invalidOrExpired) := by
  cases hu : get_user_by_email db email with
  | none =>
    refine ⟨⟨?_, ?_⟩, ?_⟩
    · rintro ⟨db', h⟩
      simp only [reset, hu] at h
      exact absurd h (by simp)
    · rintro ⟨u, e, hfu, -⟩
      exact absurd hfu (by simp)
    · intro db' h
      simp only [reset, hu] at h
      exact absurd h (by simp)
  | some user =>
    by_cases htok : user.reset_token = some rtok
    · cases hexp : user.reset_token_expires with
      | none =>
        have hr : reset db email rtok npw now = .typeError := by
          simp only [reset, hu, hexp]
          rw [if_neg (show ¬(user.reset_token ≠ some rtok) from fun h => h htok)]
        refine ⟨⟨?_, ?_⟩, ?_⟩
        · rintro ⟨db', h⟩
          rw [hr] at h
          exact absurd h (by simp)
        · rintro ⟨u, e, hfu, -, hexp', -⟩
          rw [Option.some.injEq] at hfu
          subst hfu
          rw [hexp] at hexp'
          exact absurd hexp' (by simp)
        · intro db' h
          rw [hr] at h
          exact absurd h (by simp)
      | some e =>
        by_cases hlt : e < now
        · have hr : reset db email rtok npw now = .invalidOrExpired := by
            simp only [reset, hu, hexp]
            rw [if_neg (show ¬(user.reset_token ≠ some rtok) from fun h => h htok),
              if_pos hlt]
          refine ⟨⟨?_, ?_⟩, ?_⟩
          · rintro ⟨db', h⟩
            rw [hr] at h
            exact absurd h (by simp)
          · rintro ⟨u, e', hfu, -, hexp', hle⟩
            rw [Option.some.injEq] at hfu
            subst hfu
            rw [hexp, Option.some.injEq] at hexp'
            subst hexp'
            exact absurd hlt (Nat.not_lt.mpr hle)
          · intro db' h
            rw [hr] at h
            exact absurd h (by simp)
        · have hr : reset db email rtok npw now = .ok
              { db with users := (updateFirst (fun u => u.id = user.id)
                  (fun u => { u with password_hash := hash_password npw,
                                     reset_token := none,
                                     reset_token_expires := none })
                  db.users) } := by
            simp only [reset, hu, hexp]
            rw [if_neg (show ¬(user.reset_token ≠ some rtok) from fun h => h htok),
              if_neg hlt]
          have huser_mem : user ∈ db.users := List.mem_of_find?_eq_some hu
          have huser_email : user.email = email := by
            have := List.find?_some hu
            simpa using this
          have hfind' : (updateFirst (fun u => u.id = user.id)
              (fun u => { u with password_hash := hash_password npw,
                                 reset_token := none,
                                 reset_token_expires := none })
              db.users).find? (fun u => u.email = email) = some
              { user with password_hash := hash_password npw,
                          reset_token := none,
                          reset_token_expires := none } := by
            apply find?_updateFirst huser_mem
            · simp
            · simpa using huser_email
            · intro y hy hpy
              simp only [decide_eq_true_eq] at hpy
              exact nodup_key_eq hndid hy huser_mem hpy
            · intro y hy hqy
              simp only [decide_eq_true_eq] at hqy
              exact nodup_key_eq hndem hy huser_mem (hqy.trans huser_email.symm)
          refine ⟨⟨?_, ?_⟩, ?_⟩
          · intro _
            exact ⟨user, e, rfl, htok, hexp, Nat.not_lt.mp hlt⟩
          · intro _
            exact ⟨_, hr⟩
          · intro db' h
            rw [hr, ResetOutcome.ok.injEq] at h
            subst h
            refine ⟨user, rfl, hfind', ?_⟩
            intro npw' now'
            simp only [reset, get_user_by_email]
            rw [hfind']
            simp
    · have hr : reset db email rtok npw now = .invalidOrExpired := by
        simp only [reset, hu]
        rw [if_pos htok]
      refine ⟨⟨?_, ?_⟩, ?_⟩
      · rintro ⟨db', h⟩
        rw [hr] at h
        exact absurd h (by simp)
      · rintro ⟨u, e, hfu, htok', -⟩
        rw [Option.some.injEq] at hfu
        subst hfu
        exact absurd htok' htok
      · intro db' h
        rw [hr] at h
        exact absurd h (by simp)

/-- C2 counterexample: at `now = reset_token_expiry = 100` the code
accepts the token and resets the password, where the claim demands
failure with InvalidOrExpiredToken once `now >= reset_token_expiry`. -/
theorem C2_boundary_counterexample :
    reset ⟨[⟨1, "A", "a@x.com", "h", true, some "r", some 100, 0, 0⟩], [], []⟩
        "a@x.com" "r" "npw" 100 =
      .ok ⟨[⟨1, "A", "a@x.com", hash_password "npw", true, none, none, 0, 0⟩],
        [], []⟩ := by
  rfl

/-- Witness for C2 (amended): a concrete reset at `now = 50 < expiry =
100` succeeds, and replaying the same token against the updated store
fails for every later attempt. -/
theorem C2_reset_characterization_witness :
    (∃ db', reset ⟨[⟨1, "A", "a@x.com", "h", true, some "r", some 100, 0, 0⟩],
        [], []⟩ "a@x.com" "r" "npw" 50 = .ok db') ∧
    (∀ npw' now', reset ⟨[⟨1, "A", "a@x.com", hash_password "npw", true,
        none, none, 0, 0⟩], [], []⟩ "a@x.com" "r" npw' now' =
      .invalidOrExpired) := by
  have h := C2_reset_characterization
    ⟨[⟨1, "A", "a@x.com", "h", true, some "r", some 100, 0, 0⟩], [], []⟩
    "a@x.com" "r" "npw" 50 (by decide) (by decide)
  refine ⟨h.1.mpr ⟨⟨1, "A", "a@x.com", "h", true, some "r", some 100, 0, 0⟩,
    100, rfl, rfl, rfl, by decide⟩, ?_⟩
  obtain ⟨u, hu, hfind, hreplay⟩ := h.2
    ⟨[⟨1, "A", "a@x.com", hash_password "npw", true, none, none, 0, 0⟩], [], []⟩
    (by rfl)
  exact hreplay

/-- C10's invariant on a user record: `reset_token` is present iff
`reset_token_expires` is present. -/
def resetConsistent (u : User) : Prop :=
  u.reset_token.isSome ↔ u.reset_token_expires.isSome

instance (u : User) : Decidable (resetConsistent u) :=
  decidable_of_iff (u.reset_token.isSome ↔ u.reset_token_expires.isSome) Iff.rfl

/-- C10's invariant over the whole `user` collection. -/
def dbResetConsistent (db : DB) : Prop :=
  ∀ u ∈ db.users, resetConsistent u

instance (db : DB) : Decidable (dbResetConsistent db) :=
  List.decidableBAll _ db.users

/-- C10: every operation preserves "reset_token set iff
reset_token_expires set" (`signup` creates the user with neither, `forgot`
sets both together, `reset` clears both together, `update_settings` only
touches `notifications_enabled`, and every other operation leaves the
`user` collection untouched), and under this invariant `reset` can never
reach the missing-expiry comparison (the Python `TypeError` branch). -/
theorem C10_reset_fields_set_together (db : DB) (h : dbResetConsistent db) :
    (∀ name email password token uid sid now out db',
      signup db name email password token uid sid now = .ok (out, db') →
        dbResetConsistent db') ∧
    (∀ email rtoken now, dbResetConsistent (forgot db email rtoken now).2) ∧
    (∀ email rtok npw now db', reset db email rtok npw now = .ok db' →
        dbResetConsistent db') ∧
    (∀ pid b, dbResetConsistent (update_settings db pid b)) ∧
    (∀ email password token sid now out db',
      login db email password token sid now = .ok (out, db') →
        db'.users = db.users) ∧
    (∀ auth, (logout db auth).users = db.users) ∧
    (∀ auth now, (get_current_user db auth now).2.users = db.users) ∧
    (∀ pid med fid now, (create_med db pid med fid now).2.users = db.users) ∧
    (∀ pid mid med now out db',
      update_med db pid mid med now = .ok (out, db') → db'.users = db.users) ∧
    (∀ pid mid, (delete_med db pid mid).2.users = db.users) ∧
    (∀ pid mid now db', mark_taken db pid mid now = .ok db' →
        db'.users = db.users) ∧
    (∀ pid mid now db', snooze db pid mid now = .ok db' →
        db'.users = db.users) ∧
    (∀ email rtok npw now, reset db email rtok npw now ≠ .typeError) := by
  refine ⟨?_, ?_, ?_, ?_, ?_, ?_, ?_, ?_, ?_, ?_, ?_, ?_, ?_⟩
  · intro name email password token uid sid now out db' hs
    unfold signup at hs
    split at hs
    · exact absurd hs (by simp)
    · simp only [Except.ok.injEq, Prod.mk.injEq] at hs
      rw [← hs.2]
      intro u humem
      rcases List.mem_append.mp humem with h' | h'
      · exact h u h'
      · rcases List.mem_singleton.mp h' with rfl
        simp [resetConsistent]
  · intro email rtoken now
    unfold forgot
    split
    · exact h
    · intro u humem
      rcases mem_updateFirst humem with h' | ⟨x, hx, rfl⟩
      · exact h u h'
      · simp [resetConsistent]
  · intro email rtok npw now db' hs
    unfold reset at hs
    split at hs
    · exact absurd hs (by simp)
    · split at hs
      · exact absurd hs (by simp)
      · split at hs
        · exact absurd hs (by simp)
        · split at hs
          · exact absurd hs (by simp)
          · simp only [ResetOutcome.ok.injEq] at hs
            rw [← hs]
            intro u humem
            rcases mem_updateFirst humem with h' | ⟨x, hx, rfl⟩
            · exact h u h'
            · simp [resetConsistent]
  · intro pid b
    unfold update_settings
    split
    · exact h
    · intro u humem
      rcases mem_updateFirst humem with h' | ⟨x, hx, rfl⟩
      · exact h u h'
      · simpa [resetConsistent] using h x hx
  · intro email password token sid now out db' hs
    unfold login at hs
    split at hs
    · exact absurd hs (by simp)
    · split at hs
      · exact absurd hs (by simp)
      · simp only [Except.ok.injEq, Prod.mk.injEq] at hs
        rw [← hs.2]
  · intro auth
    unfold logout
    split <;> rfl
  · intro auth now
    unfold get_current_user
    (repeat' split) <;> rfl
  · intro pid med fid now
    rfl
  · intro pid mid med now out db' hs
    unfold update_med at hs
    split at hs
    · exact absurd hs (by simp)
    · simp only [Except.ok.injEq, Prod.mk.injEq] at hs
      rw [← hs.2]
  · intro pid mid
    rfl
  · intro pid mid now db' hs
    unfold mark_taken at hs
    split at hs
    · exact absurd hs (by simp)
    · simp only [Except.ok.injEq] at hs
      rw [← hs]
  · intro pid mid now db' hs
    unfold snooze at hs
    split at hs
    · exact absurd hs (by simp)
    · simp only [Except.ok.injEq] at hs
      rw [← hs]
  · intro email rtok npw now
    cases hu : get_user_by_email db email with
    | none => simp [reset, hu]
    | some user =>
      by_cases htok : user.reset_token = some rtok
      · cases hexp : user.reset_token_expires with
        | none =>
          exfalso
          have hc := h user (List.mem_of_find?_eq_some hu)
          simp only [resetConsistent] at hc
          rw [htok, hexp] at hc
          simp at hc
        | some e =>
          simp only [reset, hu, hexp]
          rw [if_neg (show ¬(user.reset_token ≠ some rtok) from fun hh => hh htok)]
          split <;> simp
      · simp only [reset, hu]
        rw [if_pos htok]
        simp

/-- Witness for C10 at a concrete store whose single user holds a live
reset token: the invariant holds, is preserved by `forgot`, and `reset`
on the matching token does not hit the missing-expiry comparison. -/
theorem C10_reset_fields_set_together_witness :
    dbResetConsistent
      ⟨[⟨1, "A", "a@x.com", "h", true, some "r", some 100, 0, 0⟩], [], []⟩ ∧
    dbResetConsistent (forgot
      ⟨[⟨1, "A", "a@x.com", "h", true, some "r", some 100, 0, 0⟩], [], []⟩
      "a@x.com" "r2" 500).2 ∧
    reset ⟨[⟨1, "A", "a@x.com", "h", true, some "r", some 100, 0, 0⟩], [], []⟩
      "a@x.com" "r" "npw" 500 ≠ .typeError := by
  have h := C10_reset_fields_set_together
    ⟨[⟨1, "A", "a@x.com", "h", true, some "r", some 100, 0, 0⟩], [], []⟩
    (by decide)
  exact ⟨by decide, h.2.1 "a@x.com" "r2" 500,
    h.2.2.2.2.2.2.2.2.2.2.2.2 "a@x.com" "r" "npw" 500⟩

end MediFriend
